import Mathlib

set_option linter.unusedVariables false

/-!
Verification model of the xshopai notification-service (TypeScript).

The TypeScript sources are shallowly embedded: JavaScript runtime values are
the inductive `Js`, objects are insertion-ordered association lists, and the
service functions (`normalizeEventData`, `renderTemplate`,
`processNotificationEvent`, the RabbitMQ consumer callback, the event router,
the messaging-provider factory) are translated to total executable Lean
functions.  Paths on which the JavaScript code would raise a `TypeError`
(property assignment on a primitive in strict mode, `.split` on a non-string)
are modelled with `Option`/explicit `thrown` results.
-/

/-- JavaScript runtime values as produced by JSON bodies plus `undefined`.
Objects keep their keys in insertion order, as JavaScript does. -/
inductive Js where
  | jUndef : Js
  | jNull : Js
  | jBool : Bool → Js
  | jNum : Int → Js
  | jStr : String → Js
  | jObj : List (String × Js) → Js

/-- JavaScript truthiness. -/
def truthy : Js → Bool
  | Js.jUndef => false
  | Js.jNull => false
  | Js.jBool b => b
  | Js.jNum n => n != 0
  | Js.jStr s => s != ""
  | Js.jObj _ => true

/-- `a || b` on JavaScript values: the first operand if truthy, else the second. -/
def jsOr (a b : Js) : Js := if truthy a then a else b

/-- `typeof v === 'object'` (true for objects and for `null`). -/
def isObjectType : Js → Bool
  | Js.jObj _ => true
  | Js.jNull => true
  | _ => false

/-- Whether a value is a (non-null) object. -/
def isObjectJs : Js → Bool
  | Js.jObj _ => true
  | _ => false

/-- Whether a value is a string (the only truthy values owning the string
methods `includes`/`split`/`startsWith`). -/
def isStringJs : Js → Bool
  | Js.jStr _ => true
  | _ => false

def isUndef : Js → Bool
  | Js.jUndef => true
  | _ => false

/-- First-match lookup in an insertion-ordered association list. -/
def lookupKey {β : Type} : List (String × β) → String → Option β
  | [], _ => none
  | (k0, v) :: rest, k => if k0 = k then some v else lookupKey rest k

/-- JavaScript property update: overwrite in place, else append (insertion order). -/
def setKey {β : Type} : List (String × β) → String → β → List (String × β)
  | [], k, v => [(k, v)]
  | (k0, v0) :: rest, k, v => if k0 = k then (k, v) :: rest else (k0, v0) :: setKey rest k v

/-- Property read `o[k]`; reading a missing key or a key of a primitive yields
`undefined` (the embedding assumes the base is not `null`/`undefined`, on which
JavaScript would throw). -/
def jsGet : Js → String → Js
  | Js.jObj fields, k =>
    match lookupKey fields k with
    | some v => v
    | none => Js.jUndef
  | _, _ => Js.jUndef

/-- Property write `o[k] = v`; a no-op on primitives (the callers in this model
guard objecthood where the JavaScript code could throw). -/
def objSet : Js → String → Js → Js
  | Js.jObj fields, k, v => Js.jObj (setKey fields k v)
  | o, _, _ => o

/-- JavaScript `String(v)` for the modelled values. -/
def jsToString : Js → String
  | Js.jStr s => s
  | Js.jNum n => toString n
  | Js.jBool true => "true"
  | Js.jBool false => "false"
  | Js.jNull => "null"
  | Js.jUndef => "undefined"
  | Js.jObj _ => "[object Object]"

/-! ### String machinery

`String.prototype.replace` with a global `\x7b\x7bkey\x7d\x7d` regex is modelled
as left-to-right, non-overlapping replacement of every occurrence of a literal
pattern (the template keys in this service are plain identifiers, so the
constructed regex matches the literal text).  The function is written with a
character-count fuel so that it is structurally recursive and kernel-reducible. -/

def lbrace : Char := Char.ofNat 123

def rbrace : Char := Char.ofNat 125

/-- Fuel-driven replace-all; one unit of fuel is spent per emitted position.
`replaceAllL` below always supplies enough fuel. -/
def replaceAllFuel (pat rep : List Char) : Nat → List Char → List Char
  | _, [] => []
  | 0, s => s
  | n + 1, c :: rest =>
    if !pat.isEmpty && pat.isPrefixOf (c :: rest) then
      rep ++ replaceAllFuel pat rep n (List.drop (pat.length - 1) rest)
    else
      c :: replaceAllFuel pat rep n rest

/-- Replace every (left-to-right, non-overlapping) occurrence of `pat` by `rep`. -/
def replaceAllL (pat rep s : List Char) : List Char := replaceAllFuel pat rep s.length s

/-- Replace only the first occurrence of `pat` by `rep`
(JavaScript `String.prototype.replace` with a string pattern). -/
def replaceFirstL (pat rep : List Char) : List Char → List Char
  | [] => []
  | c :: rest =>
    if !pat.isEmpty && pat.isPrefixOf (c :: rest) then
      rep ++ List.drop (pat.length - 1) rest
    else
      c :: replaceFirstL pat rep rest

/-- `String.prototype.split(sep)` for a single-character separator
(JavaScript keeps empty segments; splitting the empty string yields one
empty segment). -/
def splitOnChar (c : Char) : List Char → List (List Char)
  | [] => [[]]
  | x :: xs =>
    if x = c then [] :: splitOnChar c xs
    else
      match splitOnChar c xs with
      | [] => [[x]]
      | p :: ps => (x :: p) :: ps

/-- `Array.prototype.join(sep)` with a single-character separator. -/
def joinSep (sep : Char) : List (List Char) → List Char
  | [] => []
  | [x] => x
  | x :: y :: xs => x ++ sep :: joinSep sep (y :: xs)

/-- `word.charAt(0).toUpperCase() + word.slice(1)`. -/
def capitalizeJs : List Char → List Char
  | [] => []
  | c :: rest => c.toUpper :: rest

def strSplitOn (c : Char) (s : String) : List String := (splitOnChar c s.data).map String.mk

/-- `String.prototype.startsWith(p)`. -/
def strStartsWith (p s : String) : Bool := p.data.isPrefixOf s.data

/-! ### Placeholder (`\x7b\x7bname\x7d\x7d`) occurrence analysis -/

/-- The literal text of the placeholder `\x7b\x7bk\x7d\x7d`. -/
def holeC (k : List Char) : List Char := lbrace :: lbrace :: k ++ [rbrace, rbrace]

def braceFree (l : List Char) : Prop := ∀ c ∈ l, c ≠ lbrace ∧ c ≠ rbrace

/-! ### Template segments

A template string whose braces occur only as well-formed `\x7b\x7bname\x7d\x7d`
placeholders is the flattening of a segment list: literal runs (free of an
opening brace) alternating with placeholders. -/

inductive TSeg where
  | lit : List Char → TSeg
  | hole : List Char → TSeg

/-- Concatenate a segment list back into the template text. -/
def flattenSegs : List TSeg → List Char
  | [] => []
  | TSeg.lit s :: rest => s ++ flattenSegs rest
  | TSeg.hole n :: rest => holeC n ++ flattenSegs rest

/-- Well-formedness: literal runs contain no opening brace, placeholder names
contain no brace at all. -/
def segWF : TSeg → Prop
  | TSeg.lit s => ∀ c ∈ s, c ≠ lbrace
  | TSeg.hole n => braceFree n

/-- Substitute one key: every placeholder named `k` becomes the literal `rep`. -/
def substHole (k rep : List Char) : List TSeg → List TSeg :=
  List.map fun sg =>
    match sg with
    | TSeg.hole n => if n = k then TSeg.lit rep else TSeg.hole n
    | sg => sg

/-! ### Template service (`template.service.ts`) -/

structure NotificationTemplate where
  event_type : String
  channel : String
  template_name : String
  subject : Option String
  message_template : String
  is_active : Bool

structure RenderedTemplate where
  subject : String
  message : String

/-- The guarded stringification in `renderTemplate`:
`variables[key] !== undefined && variables[key] !== null ? String(variables[key]) : ''`. -/
def substValue : Js → String
  | Js.jUndef => ""
  | Js.jNull => ""
  | v => jsToString v

/-- The `Object.keys(variables).forEach` loop over one string, on the literal
region (see `literalVars`): each iteration is literal global replacement of
the placeholder text. -/
def renderChars (s : List Char) (vars : List (String × Js)) : List Char :=
  vars.foldl (fun acc kv => replaceAllL (holeC kv.1.data) (substValue kv.2).data acc) s

/-- Characters with special meaning in a JavaScript regular expression. -/
def regexSpecials : List Char :=
  ['\\', '^', '$', '.', '|', '?', '*', '+', '(', ')', '[', ']', lbrace, rbrace]

/-- A key free of regex metacharacters: `new RegExp('\\\x7b\\\x7b'+key+'\\\x7d\\\x7d','g')`
is then a valid pattern matching exactly the literal text of the placeholder. -/
def plainKey (k : String) : Bool := k.data.all (fun c => !regexSpecials.contains c)

/-- A replacement string free of `$` is inert: it contains none of the
`$$`/`$&`-style substitution patterns of `String.prototype.replace`. -/
def inertReplacement (s : String) : Bool := !s.data.contains '$'

/-- The region on which the `forEach` loop of `renderTemplate` is exactly
literal global replacement. -/
def literalVars (vars : List (String × Js)) : Bool :=
  vars.all (fun kv => plainKey kv.1 && inertReplacement (substValue kv.2))

/-- `TemplateService.renderTemplate`.  Each `forEach` iteration builds
`new RegExp` from the raw key (wrapped in escaped braces, flag `g`) and runs
`String.prototype.replace` on subject and body.  When every key is free of
regex metacharacters and every value's string form is free of `$`, the pattern
matches exactly the literal placeholder text and the replacement is inert, so
the loop is literal global replacement, modelled exactly.  A metacharacter key
or a `$`-carrying value engages regex/substitution semantics instead — a key
such as `(` makes `new RegExp` throw a `SyntaxError`, a key such as `a.c`
matches more than the literal text, a value such as `$&` re-inserts the
match — and the result is `none`: not a modelled normal completion. -/
def renderTemplate (t : NotificationTemplate) (vars : List (String × Js)) :
    Option RenderedTemplate :=
  if literalVars vars then
    some { subject := String.mk (renderChars (t.subject.getD "").data vars)
           message := String.mk (renderChars t.message_template.data vars) }
  else none

/-- Specification-side simultaneous substitution (from the spec text): each
placeholder whose name matches a variable is replaced, independently, by the
string form of that variable; unmatched placeholders stay verbatim. -/
def substSegsSpec (vars : List (String × Js)) : List TSeg → List TSeg :=
  List.map fun sg =>
    match sg with
    | TSeg.hole n =>
      match vars.find? (fun kv => kv.1.data == n) with
      | some kv => TSeg.lit (substValue kv.2).data
      | none => TSeg.hole n
    | sg => sg

/-- Well-formedness of a variable mapping for the amended claim: keys are
brace-free and the string forms of the values contain no opening brace. -/
def varsWF (vars : List (String × Js)) : Prop :=
  ∀ kv ∈ vars, braceFree kv.1.data ∧ ∀ c ∈ (substValue kv.2).data, c ≠ lbrace

instance braceFreeDecidable (l : List Char) : Decidable (braceFree l) := by
  unfold braceFree
  infer_instance

instance segWFDecidable (sg : TSeg) : Decidable (segWF sg) := by
  cases sg with
  | lit s =>
    unfold segWF
    infer_instance
  | hole n =>
    unfold segWF
    infer_instance

instance varsWFDecidable (vars : List (String × Js)) : Decidable (varsWF vars) := by
  unfold varsWF
  infer_instance

/-! ### In-memory template catalog (`DEFAULT_TEMPLATES`) -/

def DEFAULT_TEMPLATES : List NotificationTemplate :=
  [ { event_type := "auth.user.registered", channel := "email",
      template_name := "User Registration", subject := some "Welcome to xshopai!",
      message_template := "Hello \x7b\x7bname\x7d\x7d,\n\nWelcome to xshopai! Your account has been successfully created.\n\nYou will receive a separate email to verify your email address.\n\nThank you for joining us!",
      is_active := true }
  , { event_type := "auth.email.verification.requested", channel := "email",
      template_name := "Email Verification", subject := some "Verify your email address",
      message_template := "Hello \x7b\x7busername\x7d\x7d,\n\nWelcome to xshopai! Please verify your email address by clicking the link below:\n\n\x7b\x7bverificationUrl\x7d\x7d\n\nThis link will expire in 24 hours.\n\nIf you did not create an account, please ignore this email.\n\nThank you!",
      is_active := true }
  , { event_type := "auth.password.reset.requested", channel := "email",
      template_name := "Password Reset", subject := some "Reset your password",
      message_template := "Hello \x7b\x7busername\x7d\x7d,\n\nYou requested a password reset. Click the link below to reset your password:\n\n\x7b\x7bresetUrl\x7d\x7d\n\nThis link will expire in 1 hour.\n\nIf you did not request this, please ignore this email.\n\nThank you!",
      is_active := true }
  , { event_type := "auth.password.reset.completed", channel := "email",
      template_name := "Password Reset Confirmed", subject := some "Your password has been reset",
      message_template := "Hello \x7b\x7busername\x7d\x7d,\n\nYour password has been successfully reset.\n\nIf you did not make this change, please contact support immediately.",
      is_active := true }
  , { event_type := "order.placed", channel := "email",
      template_name := "Order Confirmation", subject := some "Order Confirmed - #\x7b\x7borderNumber\x7d\x7d",
      message_template := "Hello,\n\nYour order #\x7b\x7borderNumber\x7d\x7d has been placed successfully.\n\nOrder ID: \x7b\x7borderId\x7d\x7d\nAmount: $\x7b\x7btotalAmount\x7d\x7d\n\nThank you for your purchase!",
      is_active := true }
  , { event_type := "order.cancelled", channel := "email",
      template_name := "Order Cancelled", subject := some "Order Cancelled - #\x7b\x7borderNumber\x7d\x7d",
      message_template := "Hello,\n\nYour order #\x7b\x7borderNumber\x7d\x7d has been cancelled.\n\nOrder ID: \x7b\x7borderId\x7d\x7d\nReason: \x7b\x7bcancellationReason\x7d\x7d\n\nIf you did not request this cancellation, please contact support.",
      is_active := true }
  , { event_type := "order.delivered", channel := "email",
      template_name := "Order Delivered", subject := some "Your order has been delivered - #\x7b\x7borderNumber\x7d\x7d",
      message_template := "Hello,\n\nGreat news! Your order #\x7b\x7borderNumber\x7d\x7d has been delivered.\n\nOrder ID: \x7b\x7borderId\x7d\x7d\n\nWe hope you enjoy your purchase!",
      is_active := true }
  , { event_type := "order.shipped", channel := "email",
      template_name := "Order Shipped", subject := some "Your order is on its way! - #\x7b\x7borderNumber\x7d\x7d",
      message_template := "Hello,\n\nGreat news! Your order #\x7b\x7borderNumber\x7d\x7d has been shipped.\n\nOrder ID: \x7b\x7borderId\x7d\x7d\nTracking Number: \x7b\x7btrackingNumber\x7d\x7d\n\nYou can track your order status in your account.\n\nThank you for shopping with us!",
      is_active := true }
  , { event_type := "payment.received", channel := "email",
      template_name := "Payment Received", subject := some "Payment Received",
      message_template := "Hello,\n\nWe have received your payment of $\x7b\x7bamount\x7d\x7d for order \x7b\x7borderId\x7d\x7d.\n\nPayment ID: \x7b\x7bpaymentId\x7d\x7d\n\nThank you!",
      is_active := true }
  , { event_type := "payment.failed", channel := "email",
      template_name := "Payment Failed", subject := some "Payment Failed",
      message_template := "Hello,\n\nYour payment of $\x7b\x7bamount\x7d\x7d for order \x7b\x7borderId\x7d\x7d has failed.\n\nReason: \x7b\x7breason\x7d\x7d\n\nPlease try again or contact support.",
      is_active := true }
  ]

def templateCatalogKey (t : NotificationTemplate) : String := t.event_type ++ ":" ++ t.channel

/-- `loadDefaultTemplates`: fill the map in catalog order (`Map.set`, last wins). -/
def templatesMap : List (String × NotificationTemplate) :=
  DEFAULT_TEMPLATES.foldl (fun m t => setKey m (templateCatalogKey t) t) []

/-- `TemplateService.getTemplate`: exact `(eventType, channel)` key lookup. -/
def getTemplate (eventType channel : String) : Option NotificationTemplate :=
  lookupKey templatesMap (eventType ++ ":" ++ channel)

/-! ### `JSON.stringify(data, null, 2)` (used by the basic-notification fallback) -/

def escapeJsonChar (c : Char) : String :=
  if c = '"' then "\\\""
  else if c = '\\' then "\\\\"
  else if c = '\n' then "\\n"
  else if c = '\r' then "\\r"
  else if c = '\t' then "\\t"
  else String.mk [c]

def escapeJsonString (s : String) : String := String.join (s.data.map escapeJsonChar)

def spacesN (n : Nat) : String := String.mk (List.replicate n ' ')

def joinStr (sep : String) : List String → String
  | [] => ""
  | [x] => x
  | x :: y :: xs => x ++ sep ++ joinStr sep (y :: xs)

/-- Pretty JSON with two-space indentation; `undefined`-valued fields are
omitted, as `JSON.stringify` does.  The fuel bounds the nesting depth so the
function is structurally recursive (deep nesting overflows in JavaScript too). -/
def jsonFuel : Nat → Nat → Js → String
  | 0, _, _ => ""
  | fuel + 1, ind, v =>
    match v with
    | Js.jObj fields =>
      let fs := fields.filter (fun kv => !isUndef kv.2)
      match fs with
      | [] => "\x7b\x7d"
      | _ =>
        "\x7b\n" ++
          joinStr ",\n" (fs.map (fun kv =>
            spacesN ((ind + 1) * 2) ++ "\"" ++ escapeJsonString kv.1 ++ "\": " ++
              jsonFuel fuel (ind + 1) kv.2)) ++
          "\n" ++ spacesN (ind * 2) ++ "\x7d"
    | Js.jStr s => "\"" ++ escapeJsonString s ++ "\""
    | Js.jNum n => toString n
    | Js.jBool true => "true"
    | Js.jBool false => "false"
    | Js.jNull => "null"
    | Js.jUndef => "undefined"

def jsonStringifyPretty (v : Js) : String := jsonFuel 1000 0 v

/-! ### `NotificationService` rendering (`notification.service.ts`) -/

/-- `eventType.split('.').map(w => w.charAt(0).toUpperCase() + w.slice(1)).join(' ')`. -/
def formatEventType (s : String) : String :=
  String.mk (joinSep ' ' ((splitOnChar '.' s.data).map capitalizeJs))

/-- `NotificationService.createBasicNotification`; `none` models the
`TypeError` of `.split` on a non-string `eventType`. -/
def createBasicNotification (ed : Js) (channel : String) : Option RenderedTemplate :=
  match jsGet ed "eventType" with
  | Js.jStr s =>
    let f := formatEventType s
    let base := f ++ " notification"
    let msg :=
      if truthy (jsGet ed "data") then base ++ "\n\n" ++ jsonStringifyPretty (jsGet ed "data")
      else base
    some { subject := f, message := msg }
  | _ => none

/-- `NotificationService.prepareTemplateVariables`: scaffolding fields, then all
root keys except `data` (skipping `undefined` values), then the keys of `data`
(`Object.assign`); later writes win, insertion order preserved. -/
def prepareTemplateVariables (ed : Js) : List (String × Js) :=
  let base : List (String × Js) :=
    [("userId", jsGet ed "userId"), ("userEmail", jsGet ed "userEmail"),
     ("userPhone", jsGet ed "userPhone"), ("eventType", jsGet ed "eventType"),
     ("timestamp", jsGet ed "timestamp")]
  let withRoot :=
    match ed with
    | Js.jObj fields =>
      fields.foldl (fun acc kv =>
        if kv.1 = "data" || isUndef kv.2 then acc else setKey acc kv.1 kv.2) base
    | _ => base
  if truthy (jsGet ed "data") then
    match jsGet ed "data" with
    | Js.jObj dfields => dfields.foldl (fun acc kv => setKey acc kv.1 kv.2) withRoot
    | Js.jStr s =>
      ((List.range s.data.length).zip s.data).foldl
        (fun acc ic => setKey acc (toString ic.1) (Js.jStr (String.mk [ic.2]))) withRoot
    | _ => withRoot
  else withRoot

/-- Result of `NotificationService.renderNotification`: a rendered
notification, a thrown `TypeError` (`.split` on a non-string event type in the
fallback), or the unmodelled non-literal regex region of `renderTemplate`
(where the source throws a `SyntaxError` or completes with a regex-dependent
result). -/
inductive RenderResult where
  | ok : RenderedTemplate → RenderResult
  | thrown : RenderResult
  | nonliteral : RenderResult

def isOkRender : RenderResult → Bool
  | RenderResult.ok _ => true
  | _ => false

/-- `NotificationService.renderNotification`: template hit renders it,
miss falls back to the basic notification. -/
def renderNotification (ed : Js) (channel : String) : RenderResult :=
  match getTemplate (jsToString (jsGet ed "eventType")) channel with
  | some t =>
    match renderTemplate t (prepareTemplateVariables ed) with
    | some r => RenderResult.ok r
    | none => RenderResult.nonliteral
  | none =>
    match createBasicNotification ed channel with
    | some r => RenderResult.ok r
    | none => RenderResult.thrown

/-! ### Envelope normalization and the orchestrator
(`NotificationService.processNotificationEvent`) -/

/-- Lines 335–345: `let eventData = cloudEvent.data || cloudEvent` followed by
the legacy double-nested unwrap, detected by `email`/`userId`/`firstName`
keys on `eventData.data`. -/
def unwrapPayload (ce : Js) : Js :=
  let ed0 := if truthy (jsGet ce "data") then jsGet ce "data" else ce
  let d := jsGet ed0 "data"
  if truthy d && isObjectType d &&
      (truthy (jsGet d "email") || truthy (jsGet d "userId") || truthy (jsGet d "firstName"))
  then d else ed0

/-- Lines 362–371: derive `userId` from `email`/`username`, then `eventType`
from the subscription topic.  `none` models the strict-mode `TypeError` raised
by `eventData.eventType = eventType` when the unwrapped payload is a
primitive. -/
def applyUserIdStep (fields : List (String × Js)) : Js :=
  let ed1 := Js.jObj fields
  if !truthy (jsGet ed1 "userId") &&
      (truthy (jsGet ed1 "email") || truthy (jsGet ed1 "username")) then
    objSet ed1 "userId" (jsOr (jsGet ed1 "email") (jsGet ed1 "username"))
  else ed1

def normalizeEventData (ce : Js) (topic : String) : Option Js :=
  match unwrapPayload ce with
  | Js.jObj fields =>
    let ed2 := applyUserIdStep fields
    some (if !truthy (jsGet ed2 "eventType") then objSet ed2 "eventType" (Js.jStr topic) else ed2)
  | _ => none

/-- Whether the run ends in the early `return` of line 376 (skip signal). -/
def normSkips (ce : Js) (topic : String) : Bool :=
  match normalizeEventData ce topic with
  | some ed => !truthy (jsGet ed "eventType")
  | none => false

/-- Lines 311–312: `cloudEvent.traceparent || cloudEvent.data?.traceparent ||
cloudEvent.headers?.traceparent`. -/
def extractTraceparent (ce : Js) : Js :=
  jsOr (jsGet ce "traceparent")
    (jsOr (jsGet (jsGet ce "data") "traceparent") (jsGet (jsGet ce "headers") "traceparent"))

/-- Line 314 runs `traceparent.includes('-')` on whatever truthy value the
`||` chain produced, and only strings own `.includes`: the extraction is safe
exactly when the selected header is falsy or a string. -/
def traceHeaderOk (ce : Js) : Bool :=
  !truthy (extractTraceparent ce) || isStringJs (extractTraceparent ce)

/-- Lines 313–318: trace id from the second dash-separated segment (or the
whole header, or `cloudEvent.id`, or a fresh uuid); span id from the third
segment when the header is dash-delimited, otherwise unset.  On a truthy
non-string header the source instead throws a `TypeError` at `.includes`;
`processNotificationEvent` models that throw separately (`traceHeaderOk`
guard), so this function is only relied on for string-or-falsy headers, the
region where it matches the source. -/
def extractTraceContext (ce : Js) (freshId : String) : String × Option String :=
  let tp := extractTraceparent ce
  if truthy tp then
    let s := jsToString tp
    if s.data.contains '-' then
      (((strSplitOn '-' s).get? 1).getD "", (strSplitOn '-' s).get? 2)
    else (s, none)
  else
    ((if truthy (jsGet ce "id") then jsToString (jsGet ce "id") else freshId), none)

/-! ### Outcome publication (`DaprEventPublisher`, `events/publishers`) -/

/-- The W3C-style `traceparent` attached by `DaprEventPublisher.publishEvent`. -/
def mkTraceparentField (traceId : String) (spanId : Option String) : String :=
  match spanId with
  | some sp => "00-" ++ traceId ++ "-" ++ sp ++ "-01"
  | none => "00-" ++ traceId ++ "-" ++ String.mk (List.replicate 16 '0') ++ "-01"

/-- One notification-outcome event as built by `publishNotificationSent` /
`publishNotificationFailed` and handed to the messaging provider's single
`publishEvent` call. -/
structure OutcomeEvent where
  eventType : String
  userId : Js
  userEmail : Js
  notificationId : String
  originalEventType : Js
  channel : String
  recipientEmail : Js
  subject : String
  errorMessage : Option String
  attemptNumber : Nat
  traceparent : String

def mkNotificationSent (nid : String) (origType userId recipient : Js) (subject : String)
    (tid : String) (sid : Option String) : OutcomeEvent :=
  { eventType := "notification.sent", userId := userId, userEmail := recipient,
    notificationId := nid, originalEventType := origType, channel := "email",
    recipientEmail := recipient, subject := subject, errorMessage := none,
    attemptNumber := 1, traceparent := mkTraceparentField tid sid }

def mkNotificationFailed (nid : String) (origType userId recipient : Js) (subject : String)
    (errorMessage : String) (tid : String) (sid : Option String) : OutcomeEvent :=
  { eventType := "notification.failed", userId := userId, userEmail := recipient,
    notificationId := nid, originalEventType := origType, channel := "email",
    recipientEmail := recipient, subject := subject, errorMessage := some errorMessage,
    attemptNumber := 1, traceparent := mkTraceparentField tid sid }

/-- Environment of one orchestrator run: the email-service enable flag and the
boolean the provider's `sendEmail` would return (send failures are converted to
`false`, never raised). -/
structure ProcEnv where
  emailEnabled : Bool
  sendSucceeds : Bool

/-- Result of one orchestrator run: the ordered outcome publications handed to
the messaging abstraction, and whether `sendNotificationEmail` was invoked;
`thrown` models a `TypeError` propagating to the caller; `nonliteral` marks a
run whose rendering entered the non-literal regex region of `renderTemplate`
(the source throws a `SyntaxError` or completes with a regex-dependent
rendering — not modelled as a normal run). -/
inductive ProcResult where
  | thrown : ProcResult
  | completed : List OutcomeEvent → Bool → ProcResult
  | nonliteral : ProcResult

/-- Lines 391–462: resolve the recipient, dispatch if possible, publish exactly
one `sent`/`failed` outcome. -/
def dispatchAndPublish (ed : Js) (subj : String) (env : ProcEnv) (nid tid : String)
    (sid : Option String) : List OutcomeEvent × Bool :=
  let recipient := jsOr (jsGet ed "userEmail") (jsGet ed "email")
  if truthy recipient && env.emailEnabled then
    if env.sendSucceeds then
      ([mkNotificationSent nid (jsGet ed "eventType") (jsGet ed "userId") recipient subj tid sid], true)
    else
      ([mkNotificationFailed nid (jsGet ed "eventType") (jsGet ed "userId") recipient subj
          "Email sending failed" tid sid], true)
  else
    ([mkNotificationFailed nid (jsGet ed "eventType") (jsGet ed "userId") recipient subj
        "No email address or email service disabled" tid sid], false)

/-- `NotificationService.processNotificationEvent`.  The trace extraction of
lines 311–318 runs first: a truthy non-string `traceparent` throws a
`TypeError` at `.includes` before anything is normalized or published. -/
def processNotificationEventBody (ce : Js) (topic : String) (env : ProcEnv)
    (nid freshTid : String) : ProcResult :=
  let tc := extractTraceContext ce freshTid
  match normalizeEventData ce topic with
  | none => ProcResult.thrown
  | some ed =>
    if truthy (jsGet ed "eventType") then
      match renderNotification ed "email" with
      | RenderResult.ok rendered =>
        let subj := if rendered.subject = "" then "Notification" else rendered.subject
        let pa := dispatchAndPublish ed subj env nid tc.1 tc.2
        ProcResult.completed pa.1 pa.2
      | RenderResult.thrown => ProcResult.thrown
      | RenderResult.nonliteral => ProcResult.nonliteral
    else ProcResult.completed [] false

def processNotificationEvent (ce : Js) (topic : String) (env : ProcEnv)
    (nid freshTid : String) : ProcResult :=
  if truthy (extractTraceparent ce) && !isStringJs (extractTraceparent ce) then
    ProcResult.thrown
  else processNotificationEventBody ce topic env nid freshTid

/-- The error messages of the published outcomes of a run, in order. -/
def outcomeErrorMessages : ProcResult → List (Option String)
  | ProcResult.completed pubs _ => pubs.map OutcomeEvent.errorMessage
  | _ => []

/-- The kinds (`notification.sent` / `notification.failed`) of the published
outcomes of a run, in order. -/
def outcomeKinds : ProcResult → List String
  | ProcResult.completed pubs _ => pubs.map OutcomeEvent.eventType
  | _ => []

/-- Whether `sendNotificationEmail` (the delivery dispatcher) was invoked. -/
def emailAttemptedOf : ProcResult → Bool
  | ProcResult.completed _ att => att
  | _ => false

/-! ### RabbitMQ consumer callback (`rabbitmqProvider.ts`, `subscribe`) -/

inductive HandlerResult where
  | ok : HandlerResult
  | thrown : HandlerResult

inductive BrokerAction where
  | ack : BrokerAction
  | nackRequeue : BrokerAction

/-- One delivered message: the outcome of `JSON.parse(msg.content.toString())`
(`none` when parsing throws) and the AMQP routing key. -/
structure DeliveredMessage where
  parsedContent : Option Js
  routingKey : String

/-- The per-message callback registered by `subscribe`: parse, attach the
routing key as `type`, invoke the handler, `ack` on success; any exception
(parse error, non-object body, handler throw) is caught and answered with
`nack(msg, false, true)` — requeue. -/
def consumeDelivery (msg : DeliveredMessage) (handler : Js → HandlerResult) : BrokerAction :=
  match msg.parsedContent with
  | some (Js.jObj fields) =>
    match handler (Js.jObj (setKey fields "type" (Js.jStr msg.routingKey))) with
    | HandlerResult.ok => BrokerAction.ack
    | HandlerResult.thrown => BrokerAction.nackRequeue
  | _ => BrokerAction.nackRequeue

/-! ### Event router (`consumers/event.router.ts`) -/

/-- The keys of `TOPIC_HANDLERS`. -/
def topicHandlerKeys : List String :=
  [ "auth.user.registered", "auth.email.verification.requested",
    "auth.password.reset.requested", "auth.password.reset.completed",
    "user.created", "user.updated", "user.deleted", "user.email.verified",
    "user.password.changed",
    "order.placed", "order.cancelled", "order.delivered", "order.shipped",
    "payment.received", "payment.failed",
    "profile.password_changed", "profile.notification_preferences_updated",
    "profile.bank_details_updated" ]

/-- Lines 100–109: strip a leading `com.xshopai.` (guarded by `startsWith`,
then `replace` of the first occurrence, hence removed exactly once). -/
def routedTopic (t : String) : String :=
  if strStartsWith "com.xshopai." t then
    String.mk (replaceFirstL "com.xshopai.".data [] t.data)
  else t

/-- The own property names of `Object.prototype`: `TOPIC_HANDLERS` is a plain
object literal, so a bracket lookup with one of these names finds the
inherited member instead of `undefined`. -/
def objectPrototypeKeys : List String :=
  [ "constructor", "hasOwnProperty", "isPrototypeOf", "propertyIsEnumerable",
    "toLocaleString", "toString", "valueOf", "__defineGetter__",
    "__defineSetter__", "__lookupGetter__", "__lookupSetter__", "__proto__" ]

inductive RouteResult where
  | noHandler : RouteResult
  | handled : String → HandlerResult → RouteResult
  | inheritedCall : String → RouteResult
  | routeError : RouteResult

/-- `routeEventToHandler`, with the controller bodies abstracted by `impl`.
`TOPIC_HANDLERS[topic]` is a JavaScript property access: a registered topic
finds its own handler, but a topic naming a member inherited from
`Object.prototype` also yields a truthy value, so the `if (!handler)` guard
does not fire and `handler(event)` is invoked.  For `__proto__` the inherited
value is the prototype object itself, not callable: the invocation throws a
`TypeError`, which the router catch re-throws (`routeError`).  The other
inherited members are builtin functions whose invocation is not modelled
further (`inheritedCall`).  A truthy non-string `type` throws at
`.startsWith` (`routeError`); only a topic that is neither registered nor
inherited reaches the early `return` without invoking anything
(`noHandler`). -/
def routeEventToHandler (impl : String → Js → HandlerResult) (ev : Js) : RouteResult :=
  match jsGet ev "type" with
  | Js.jStr t0 =>
    let topic := routedTopic t0
    if topic ∈ topicHandlerKeys then RouteResult.handled topic (impl topic ev)
    else if topic = "__proto__" then RouteResult.routeError
    else if topic ∈ objectPrototypeKeys then RouteResult.inheritedCall topic
    else RouteResult.noHandler
  | v => if truthy v then RouteResult.routeError else RouteResult.noHandler

/-- The broker consume callback (see `consumeDelivery`) composed with the
event router as its handler: a clean route (including the no-handler miss)
acks, a throw out of the router (re-thrown handler exception, the
non-callable `__proto__` member, a bad `type`) is caught and answered with
nack-requeue, and the invocation of another inherited `Object.prototype`
builtin is left unmodelled (`none`). -/
def consumeRoutedDelivery (impl : String → Js → HandlerResult)
    (msg : DeliveredMessage) : Option BrokerAction :=
  match msg.parsedContent with
  | some (Js.jObj fields) =>
    match routeEventToHandler impl
        (Js.jObj (setKey fields "type" (Js.jStr msg.routingKey))) with
    | RouteResult.noHandler => some BrokerAction.ack
    | RouteResult.handled _ HandlerResult.ok => some BrokerAction.ack
    | RouteResult.handled _ HandlerResult.thrown => some BrokerAction.nackRequeue
    | RouteResult.routeError => some BrokerAction.nackRequeue
    | RouteResult.inheritedCall _ => none
  | _ => some BrokerAction.nackRequeue

/-! ### Messaging-provider factory (`messaging/factory.ts`)

`getMessagingProvider` is the naive check-then-create pattern with an `await`
between the null check and the assignment.  The event-loop semantics are
modelled as an interleaving of atomic segments: segment one performs the null
check and (when the cache is empty) starts `createProvider`, suspending;
segment two (the continuation after the `await`) stores the created instance
and returns it.  Instances are numbered; `creations` counts `createProvider`
calls. -/

structure FactoryState where
  cached : Option Nat
  nextId : Nat
  creations : Nat

inductive CallerPhase where
  | ready : CallerPhase
  | awaitingCreate : Nat → CallerPhase
  | returned : Nat → CallerPhase

def stepCaller : FactoryState → CallerPhase → FactoryState × CallerPhase
  | s, CallerPhase.ready =>
    match s.cached with
    | some v => (s, CallerPhase.returned v)
    | none =>
      ({ s with nextId := s.nextId + 1, creations := s.creations + 1 },
        CallerPhase.awaitingCreate s.nextId)
  | s, CallerPhase.awaitingCreate myId => ({ s with cached := some myId }, CallerPhase.returned myId)
  | s, CallerPhase.returned v => (s, CallerPhase.returned v)

/-- Run two concurrent callers of `getMessagingProvider` under a schedule
(`false` steps caller A, `true` steps caller B). -/
def runFactorySched : List Bool → FactoryState × CallerPhase × CallerPhase →
    FactoryState × CallerPhase × CallerPhase
  | [], st => st
  | b :: rest, (s, pA, pB) =>
    if b then
      let r := stepCaller s pB
      runFactorySched rest (r.1, pA, r.2)
    else
      let r := stepCaller s pA
      runFactorySched rest (r.1, r.2, pB)

def initFactoryState : FactoryState := { cached := none, nextId := 0, creations := 0 }

/-! ## Theorems -/

/-! ### Basic association-list lemmas -/

theorem lookupKey_setKey_same {β : Type} (l : List (String × β)) (k : String) (v : β) :
    lookupKey (setKey l k v) k = some v := by
  induction l with
  | nil => simp [setKey, lookupKey]
  | cons hd tl ih =>
    obtain ⟨k0, v0⟩ := hd
    by_cases h : k0 = k
    · simp [setKey, h, lookupKey]
    · simp [setKey, h, lookupKey, ih]

theorem lookupKey_setKey_ne {β : Type} (l : List (String × β)) (k q : String) (v : β)
    (h : k ≠ q) : lookupKey (setKey l k v) q = lookupKey l q := by
  induction l with
  | nil => simp [setKey, lookupKey, h]
  | cons hd tl ih =>
    obtain ⟨k0, v0⟩ := hd
    by_cases h0 : k0 = k
    · simp [setKey, h0, lookupKey, h]
    · simp [setKey, h0, lookupKey, ih]

theorem jsGet_objSet_same (fields : List (String × Js)) (k : String) (v : Js) :
    jsGet (objSet (Js.jObj fields) k v) k = v := by
  simp [objSet, jsGet, lookupKey_setKey_same]

theorem jsGet_objSet_ne (fields : List (String × Js)) (k q : String) (v : Js) (h : k ≠ q) :
    jsGet (objSet (Js.jObj fields) k v) q = jsGet (Js.jObj fields) q := by
  simp [objSet, jsGet, lookupKey_setKey_ne _ _ _ _ h]

/-! ### Replace-all lemmas -/

theorem replaceAllFuel_fuelIrrel (pat rep : List Char) :
    ∀ f s, s.length ≤ f → replaceAllFuel pat rep f s = replaceAllL pat rep s := by
  intro f
  induction f using Nat.strong_induction_on with
  | _ f ih =>
    intro s hs
    match f, s with
    | _, [] =>
      cases f <;> simp [replaceAllFuel, replaceAllL]
    | 0, c :: rest => simp at hs
    | f + 1, c :: rest =>
      simp only [List.length_cons] at hs
      have hr : rest.length ≤ f := Nat.lt_succ_iff.mp (Nat.lt_of_lt_of_le (Nat.lt_succ_self _) hs)
      by_cases hcond : (!pat.isEmpty && pat.isPrefixOf (c :: rest)) = true
      · have hd1 : (List.drop (pat.length - 1) rest).length ≤ f :=
          le_trans (by simp) hr
        have h1 : replaceAllFuel pat rep (f + 1) (c :: rest) =
            rep ++ replaceAllFuel pat rep f (List.drop (pat.length - 1) rest) := by
          simp [replaceAllFuel, hcond]
        have h2 : replaceAllL pat rep (c :: rest) =
            rep ++ replaceAllFuel pat rep rest.length (List.drop (pat.length - 1) rest) := by
          simp [replaceAllL, List.length_cons, replaceAllFuel, hcond]
        rw [h1, h2, ih f (Nat.lt_succ_self _) _ hd1,
          ih rest.length (Nat.lt_succ_of_le hr) _ (by simp)]
      · have h1 : replaceAllFuel pat rep (f + 1) (c :: rest) =
            c :: replaceAllFuel pat rep f rest := by
          simp [replaceAllFuel, hcond]
        have h2 : replaceAllL pat rep (c :: rest) =
            c :: replaceAllFuel pat rep rest.length rest := by
          simp [replaceAllL, List.length_cons, replaceAllFuel, hcond]
        rw [h1, h2, ih f (Nat.lt_succ_self _) _ hr,
          ih rest.length (Nat.lt_succ_of_le hr) _ (Nat.le_refl _)]

theorem replaceAllL_nil (pat rep : List Char) : replaceAllL pat rep [] = [] := rfl

theorem replaceAllL_cons_neg (pat rep : List Char) (c : Char) (s : List Char)
    (h : pat.isPrefixOf (c :: s) = false) :
    replaceAllL pat rep (c :: s) = c :: replaceAllL pat rep s := by
  have : replaceAllL pat rep (c :: s) = c :: replaceAllFuel pat rep s.length s := by
    simp [replaceAllL, List.length_cons, replaceAllFuel, h]
  rw [this, replaceAllFuel_fuelIrrel pat rep s.length s (Nat.le_refl _)]

theorem replaceAllL_match (pat rep t : List Char) (hne : pat ≠ []) :
    replaceAllL pat rep (pat ++ t) = rep ++ replaceAllL pat rep t := by
  match pat, hne with
  | p0 :: pr, _ =>
    have hpre : (p0 :: pr).isPrefixOf ((p0 :: pr) ++ t) = true := by
      simp [List.isPrefixOf_iff_prefix]
    have hlen : (p0 :: pr).length - 1 = pr.length := by simp
    have h1 : replaceAllL (p0 :: pr) rep ((p0 :: pr) ++ t) =
        rep ++ replaceAllFuel (p0 :: pr) rep (pr ++ t).length
          (List.drop pr.length (pr ++ t)) := by
      simp only [List.cons_append, replaceAllL, List.length_cons, replaceAllFuel]
      simp [hpre, hlen]
    rw [h1, List.drop_left, replaceAllFuel_fuelIrrel _ _ _ _ (by simp)]

theorem isPrefixOf_cons_same (a : Char) (l1 l2 : List Char) :
    (a :: l1).isPrefixOf (a :: l2) = l1.isPrefixOf l2 := by
  simp [List.isPrefixOf]

theorem isPrefixOf_head_ne (a b : Char) (l1 l2 : List Char) (h : a ≠ b) :
    (a :: l1).isPrefixOf (b :: l2) = false := by
  have hb : (a == b) = false := by
    simp [h]
  simp [List.isPrefixOf, hb]

theorem replaceAllL_skip (pat rep : List Char) (p : List Char) (hpat : pat = lbrace :: p) :
    ∀ l r, (∀ c ∈ l, c ≠ lbrace) →
      replaceAllL pat rep (l ++ r) = l ++ replaceAllL pat rep r := by
  intro l
  induction l with
  | nil => intro r _; simp
  | cons c l ih =>
    intro r hl
    have hc : c ≠ lbrace := hl c (by simp)
    have hpre : pat.isPrefixOf (c :: (l ++ r)) = false := by
      rw [hpat]
      exact isPrefixOf_head_ne lbrace c _ _ (Ne.symm hc)
    rw [List.cons_append, replaceAllL_cons_neg _ _ _ _ hpre,
      ih r (fun d hd => hl d (by simp [hd]))]
    simp

theorem not_prefix_rbrace (r1 r2 : List Char) :
    ∀ k n, braceFree k → braceFree n → k ≠ n →
      (k ++ rbrace :: r1).isPrefixOf (n ++ rbrace :: r2) = false := by
  intro k
  induction k with
  | nil =>
    intro n hk hn hne
    match n, hne with
    | [], hne => exact absurd rfl hne
    | c :: n, _ =>
      have hc : c ≠ rbrace := (hn c (by simp)).2
      exact isPrefixOf_head_ne rbrace c _ _ (Ne.symm hc)
  | cons a k ih =>
    intro n hk hn hne
    match n with
    | [] =>
      have ha : a ≠ rbrace := (hk a (by simp)).2
      exact isPrefixOf_head_ne a rbrace _ _ ha
    | c :: n =>
      by_cases hac : a = c
      · subst hac
        have hne2 : k ≠ n := by
          intro h
          exact hne (by rw [h])
        have hred : ((a :: k) ++ rbrace :: r1).isPrefixOf ((a :: n) ++ rbrace :: r2) =
            (k ++ rbrace :: r1).isPrefixOf (n ++ rbrace :: r2) := by
          rw [List.cons_append, List.cons_append, isPrefixOf_cons_same]
        rw [hred]
        exact ih n (fun d hd => hk d (by simp [hd])) (fun d hd => hn d (by simp [hd])) hne2
      · exact isPrefixOf_head_ne a c _ _ hac

theorem holeC_not_prefix (k n : List Char) (r : List Char)
    (hk : braceFree k) (hn : braceFree n) (hne : k ≠ n) :
    (holeC k).isPrefixOf (holeC n ++ r) = false := by
  have hL : holeC k = lbrace :: (lbrace :: (k ++ [rbrace, rbrace])) := rfl
  have hR : holeC n ++ r = lbrace :: (lbrace :: (n ++ rbrace :: rbrace :: r)) := by
    simp [holeC]
  rw [hL, hR, isPrefixOf_cons_same, isPrefixOf_cons_same]
  have hshape : k ++ [rbrace, rbrace] = k ++ rbrace :: [rbrace] := rfl
  have hshape2 : n ++ rbrace :: rbrace :: r = n ++ rbrace :: (rbrace :: r) := rfl
  rw [hshape, hshape2]
  exact not_prefix_rbrace [rbrace] (rbrace :: r) k n hk hn hne

theorem replaceAllL_hole_eq (k rep : List Char) (r : List Char) :
    replaceAllL (holeC k) rep (holeC k ++ r) = rep ++ replaceAllL (holeC k) rep r :=
  replaceAllL_match (holeC k) rep r (by simp [holeC])

theorem replaceAllL_hole_ne (k n rep : List Char) (r : List Char)
    (hk : braceFree k) (hn : braceFree n) (hne : k ≠ n) :
    replaceAllL (holeC k) rep (holeC n ++ r) = holeC n ++ replaceAllL (holeC k) rep r := by
  have h0 : (holeC k).isPrefixOf (holeC n ++ r) = false := holeC_not_prefix k n r hk hn hne
  have hstep0 : holeC n ++ r = lbrace :: (lbrace :: (n ++ rbrace :: rbrace :: r)) := by
    simp [holeC]
  rw [hstep0] at h0 ⊢
  rw [replaceAllL_cons_neg _ _ _ _ h0]
  have h1 : (holeC k).isPrefixOf (lbrace :: (n ++ rbrace :: rbrace :: r)) = false := by
    rw [show holeC k = lbrace :: (lbrace :: (k ++ [rbrace, rbrace])) from rfl,
      isPrefixOf_cons_same]
    match n with
    | [] => exact isPrefixOf_head_ne lbrace rbrace _ _ (by decide)
    | c :: n2 => exact isPrefixOf_head_ne lbrace c _ _ (Ne.symm ((hn c (by simp)).1))
  rw [replaceAllL_cons_neg _ _ _ _ h1]
  have h2 : replaceAllL (holeC k) rep (n ++ rbrace :: rbrace :: r) =
      n ++ replaceAllL (holeC k) rep (rbrace :: rbrace :: r) :=
    replaceAllL_skip (holeC k) rep (lbrace :: k ++ [rbrace, rbrace]) (by simp [holeC])
      n (rbrace :: rbrace :: r) (fun c hc => (hn c hc).1)
  rw [h2]
  have hrb : ∀ t : List Char, (holeC k).isPrefixOf (rbrace :: t) = false := by
    intro t
    rw [show holeC k = lbrace :: (lbrace :: k ++ [rbrace, rbrace]) from rfl]
    exact isPrefixOf_head_ne lbrace rbrace _ _ (by decide)
  rw [replaceAllL_cons_neg _ _ _ _ (hrb _), replaceAllL_cons_neg _ _ _ _ (hrb _)]
  simp [holeC]

theorem flatten_replace (k rep : List Char) (hk : braceFree k) (hrep : ∀ c ∈ rep, c ≠ lbrace) :
    ∀ segs, (∀ sg ∈ segs, segWF sg) →
      replaceAllL (holeC k) rep (flattenSegs segs) = flattenSegs (substHole k rep segs) := by
  intro segs
  induction segs with
  | nil => intro _; simp [flattenSegs, substHole, replaceAllL_nil]
  | cons sg rest ih =>
    intro hwf
    have hrest : ∀ s ∈ rest, segWF s := fun s hs => hwf s (by simp [hs])
    match sg with
    | TSeg.lit s =>
      have hs : ∀ c ∈ s, c ≠ lbrace := hwf (TSeg.lit s) (by simp)
      rw [show flattenSegs (TSeg.lit s :: rest) = s ++ flattenSegs rest from rfl]
      rw [replaceAllL_skip (holeC k) rep (lbrace :: k ++ [rbrace, rbrace]) (by simp [holeC]) s _ hs]
      rw [ih hrest]
      rfl
    | TSeg.hole n =>
      have hn : braceFree n := hwf (TSeg.hole n) (by simp)
      rw [show flattenSegs (TSeg.hole n :: rest) = holeC n ++ flattenSegs rest from rfl]
      by_cases hkn : n = k
      · subst hkn
        rw [replaceAllL_hole_eq, ih hrest]
        simp [substHole, flattenSegs]
      · rw [replaceAllL_hole_ne k n rep _ hk hn (fun h => hkn h.symm), ih hrest]
        simp [substHole, flattenSegs, hkn]

theorem substHole_wf (k rep : List Char) (hrep : ∀ c ∈ rep, c ≠ lbrace)
    (segs : List TSeg) (h : ∀ sg ∈ segs, segWF sg) :
    ∀ sg ∈ substHole k rep segs, segWF sg := by
  intro sg hsg
  simp only [substHole, List.mem_map] at hsg
  obtain ⟨sg0, hsg0, heq⟩ := hsg
  have h0 := h sg0 hsg0
  match sg0 with
  | TSeg.lit s => rw [← heq]; exact h0
  | TSeg.hole n =>
    by_cases hn : n = k
    · simp only [hn, if_pos rfl] at heq
      rw [← heq]
      exact hrep
    · simp only [if_neg hn] at heq
      rw [← heq]
      exact h0

theorem renderChars_segs (vars : List (String × Js)) :
    ∀ segs, varsWF vars → (∀ sg ∈ segs, segWF sg) →
      renderChars (flattenSegs segs) vars =
        flattenSegs (vars.foldl (fun sg kv => substHole kv.1.data (substValue kv.2).data sg) segs) := by
  induction vars with
  | nil => intro segs _ _; simp [renderChars]
  | cons kv rest ih =>
    intro segs hw hsegs
    have hkv := hw kv (by simp)
    have hrest : varsWF rest := fun p hp => hw p (by simp [hp])
    have step : renderChars (flattenSegs segs) (kv :: rest) =
        renderChars (replaceAllL (holeC kv.1.data) (substValue kv.2).data (flattenSegs segs)) rest := by
      simp [renderChars]
    rw [step, flatten_replace kv.1.data (substValue kv.2).data hkv.1 hkv.2 segs hsegs]
    rw [ih _ hrest (substHole_wf _ _ hkv.2 segs hsegs)]
    simp [List.foldl_cons]

theorem foldl_substHole_spec (vars : List (String × Js)) :
    ∀ segs, vars.foldl (fun sg kv => substHole kv.1.data (substValue kv.2).data sg) segs =
      substSegsSpec vars segs := by
  induction vars with
  | nil =>
    intro segs
    simp only [List.foldl_nil, substSegsSpec, List.find?_nil]
    induction segs with
    | nil => simp
    | cons sg rest ihs =>
      match sg with
      | TSeg.lit s => simp only [List.map_cons] at ihs ⊢; rw [← ihs]
      | TSeg.hole n => simp only [List.map_cons] at ihs ⊢; rw [← ihs]
  | cons kv rest ih =>
    intro segs
    rw [List.foldl_cons, ih]
    simp only [substSegsSpec, substHole, List.map_map]
    apply List.map_congr_left
    intro sg hsg
    match sg with
    | TSeg.lit s => rfl
    | TSeg.hole n =>
      by_cases hn : n = kv.1.data
      · have hbeq : (kv.1.data == n) = true := by simp [hn]
        simp [Function.comp, hn, List.find?_cons, hbeq]
      · have hbeq : (kv.1.data == n) = false := by
          simp
          exact fun h => hn h.symm
        simp [Function.comp, hn, List.find?_cons, hbeq]

/-! ### Length facts for the fallback subject -/

theorem capitalizeJs_length (w : List Char) : (capitalizeJs w).length = w.length := by
  cases w <;> simp [capitalizeJs]

theorem splitOnChar_ne_nil (c : Char) (l : List Char) : splitOnChar c l ≠ [] := by
  cases l with
  | nil => simp [splitOnChar]
  | cons x xs =>
    by_cases h : x = c
    · simp [splitOnChar, h]
    · simp only [splitOnChar, if_neg h]
      rcases hs : splitOnChar c xs with _ | ⟨p, ps⟩ <;> simp

theorem joinSep_cons_cons (sep : Char) (a b : List Char) (t : List (List Char)) :
    joinSep sep (a :: b :: t) = a ++ sep :: joinSep sep (b :: t) := rfl

theorem formatChars_length : ∀ l : List Char,
    (joinSep ' ' ((splitOnChar '.' l).map capitalizeJs)).length = l.length := by
  intro l
  induction l with
  | nil => rfl
  | cons x xs ih =>
    rcases h : splitOnChar '.' xs with _ | ⟨p, ps⟩
    · exact absurd h (splitOnChar_ne_nil _ _)
    · rw [h] at ih
      simp only [List.map_cons] at ih
      by_cases hx : x = '.'
      · simp only [splitOnChar, if_pos hx, h, List.map_cons]
        rw [joinSep_cons_cons]
        rw [show capitalizeJs ([] : List Char) = ([] : List Char) from rfl]
        simp only [List.nil_append, List.length_cons]
        omega
      · simp only [splitOnChar, if_neg hx, h, List.map_cons]
        cases ps with
        | nil =>
          have h1 : joinSep ' ' [capitalizeJs (x :: p)] = capitalizeJs (x :: p) := rfl
          have h2 : joinSep ' ' [capitalizeJs p] = capitalizeJs p := rfl
          simp only [List.map_nil, h2, capitalizeJs_length] at ih
          simp only [List.map_nil, h1, capitalizeJs_length, List.length_cons]
          omega
        | cons q ps2 =>
          simp only [List.map_cons] at ih ⊢
          rw [joinSep_cons_cons] at ih ⊢
          simp only [List.length_append, List.length_cons, capitalizeJs_length] at ih ⊢
          omega

theorem formatEventType_ne_empty (s : String) (hs : s ≠ "") : formatEventType s ≠ "" := by
  intro h
  apply hs
  have hd : (formatEventType s).data = ([] : List Char) := by rw [h]
  have h0 : s.data.length = 0 := by
    rw [← formatChars_length s.data,
      show joinSep ' ' ((splitOnChar '.' s.data).map capitalizeJs) = (formatEventType s).data
        from rfl, hd]
    rfl
  have hnil : s.data = [] := List.length_eq_zero.mp h0
  cases s with
  | mk data =>
    simp only at hnil
    rw [hnil]

/-! ### Helper lemmas for the claims -/

theorem traceHeaderOk_false_guard (ce : Js) (h : traceHeaderOk ce = true) :
    (truthy (extractTraceparent ce) && !isStringJs (extractTraceparent ce)) = false := by
  unfold traceHeaderOk at h
  cases htr2 : truthy (extractTraceparent ce) with
  | false => simp
  | true =>
    cases his : isStringJs (extractTraceparent ce) with
    | false => rw [htr2, his] at h; simp at h
    | true => simp [his]

theorem processNotificationEvent_traceOk (ce : Js) (topic : String) (env : ProcEnv)
    (nid freshTid : String) (h : traceHeaderOk ce = true) :
    processNotificationEvent ce topic env nid freshTid =
      processNotificationEventBody ce topic env nid freshTid := by
  unfold processNotificationEvent
  rw [traceHeaderOk_false_guard ce h]
  rfl

theorem renderNotification_ok_of_literal (ed : Js) (ch : String) (s : String)
    (hty : jsGet ed "eventType" = Js.jStr s)
    (hlit : literalVars (prepareTemplateVariables ed) = true) :
    ∃ r, renderNotification ed ch = RenderResult.ok r := by
  unfold renderNotification
  cases hgt : getTemplate (jsToString (jsGet ed "eventType")) ch with
  | some t =>
    unfold renderTemplate
    rw [hlit]
    exact ⟨_, rfl⟩
  | none =>
    unfold createBasicNotification
    rw [hty]
    exact ⟨_, rfl⟩

theorem dispatchAndPublish_spec (ed : Js) (subj : String) (env : ProcEnv) (nid tid : String)
    (sid : Option String) :
    ∃ ev : OutcomeEvent,
      dispatchAndPublish ed subj env nid tid sid =
        ([ev], truthy (jsOr (jsGet ed "userEmail") (jsGet ed "email")) && env.emailEnabled) ∧
      ev.eventType =
        (if truthy (jsOr (jsGet ed "userEmail") (jsGet ed "email")) && env.emailEnabled
            && env.sendSucceeds
         then "notification.sent" else "notification.failed") := by
  unfold dispatchAndPublish
  by_cases hc : (truthy (jsOr (jsGet ed "userEmail") (jsGet ed "email")) && env.emailEnabled) = true
  · by_cases hsend : env.sendSucceeds = true
    · exact ⟨mkNotificationSent nid (jsGet ed "eventType") (jsGet ed "userId")
        (jsOr (jsGet ed "userEmail") (jsGet ed "email")) subj tid sid,
        by simp [hc, hsend], by simp [hc, hsend, mkNotificationSent]⟩
    · simp only [Bool.not_eq_true] at hsend
      exact ⟨mkNotificationFailed nid (jsGet ed "eventType") (jsGet ed "userId")
        (jsOr (jsGet ed "userEmail") (jsGet ed "email")) subj "Email sending failed" tid sid,
        by simp [hc, hsend], by simp [hc, hsend, mkNotificationFailed]⟩
  · simp only [Bool.not_eq_true] at hc
    exact ⟨mkNotificationFailed nid (jsGet ed "eventType") (jsGet ed "userId")
      (jsOr (jsGet ed "userEmail") (jsGet ed "email")) subj
      "No email address or email service disabled" tid sid,
      by simp [hc], by simp [hc, mkNotificationFailed]⟩

theorem truthy_jStr_of_ne (s : String) (hs : s ≠ "") : truthy (Js.jStr s) = true := by
  simp [truthy, hs]

theorem jsGet_applyUserIdStep_eventType (fields : List (String × Js)) :
    jsGet (applyUserIdStep fields) "eventType" = jsGet (Js.jObj fields) "eventType" := by
  unfold applyUserIdStep
  by_cases h : (!truthy (jsGet (Js.jObj fields) "userId") &&
      (truthy (jsGet (Js.jObj fields) "email") || truthy (jsGet (Js.jObj fields) "username"))) = true
  · simp only [h, if_true]
    exact jsGet_objSet_ne fields "userId" "eventType" _ (by decide)
  · simp only [Bool.not_eq_true] at h
    simp [h]

theorem applyUserIdStep_isObj (fields : List (String × Js)) :
    ∃ f2, applyUserIdStep fields = Js.jObj f2 := by
  unfold applyUserIdStep
  by_cases h : (!truthy (jsGet (Js.jObj fields) "userId") &&
      (truthy (jsGet (Js.jObj fields) "email") || truthy (jsGet (Js.jObj fields) "username"))) = true
  · exact ⟨setKey fields "userId" (jsOr (jsGet (Js.jObj fields) "email")
      (jsGet (Js.jObj fields) "username")), by simp [h, objSet]⟩
  · simp only [Bool.not_eq_true] at h
    exact ⟨fields, by simp [h]⟩

/-! ### C1 -/

/-- C1: for every event the orchestrator carries through normalization (an
envelope with a non-empty string event type is established), provided the
incoming `traceparent` header, when truthy, is a string (a truthy non-string
makes `traceparent.includes` throw a TypeError in the source) and the
rendering step returns normally, the run completes with exactly one outcome
publication handed to the messaging abstraction — `notification.sent` exactly
when the email send returned `true`, otherwise `notification.failed` —
regardless of whether delivery succeeded. -/
theorem C1_exactly_one_outcome_publication
    (ce : Js) (topic : String) (env : ProcEnv) (nid freshTid : String) (ed : Js) (s : String)
    (r : RenderedTemplate)
    (htrace : traceHeaderOk ce = true)
    (hnorm : normalizeEventData ce topic = some ed)
    (hty : jsGet ed "eventType" = Js.jStr s) (hs : s ≠ "")
    (hrender : renderNotification ed "email" = RenderResult.ok r) :
    ∃ ev : OutcomeEvent,
      processNotificationEvent ce topic env nid freshTid =
        ProcResult.completed [ev]
          (truthy (jsOr (jsGet ed "userEmail") (jsGet ed "email")) && env.emailEnabled) ∧
      ev.eventType =
        (if truthy (jsOr (jsGet ed "userEmail") (jsGet ed "email")) && env.emailEnabled
            && env.sendSucceeds
         then "notification.sent" else "notification.failed") := by
  have htr : truthy (jsGet ed "eventType") = true := by
    rw [hty]; exact truthy_jStr_of_ne s hs
  obtain ⟨ev, hd, hk⟩ := dispatchAndPublish_spec ed
    (if r.subject = "" then "Notification" else r.subject) env nid
    (extractTraceContext ce freshTid).1 (extractTraceContext ce freshTid).2
  refine ⟨ev, ?_, hk⟩
  rw [processNotificationEvent_traceOk ce topic env nid freshTid htrace]
  unfold processNotificationEventBody
  rw [hnorm]
  simp only [htr, if_true, hrender, hd]

/-- C1 witness: an event with a recipient address and a successful send
publishes exactly one outcome, of kind `notification.sent`. -/
theorem C1_witness :
    outcomeKinds (processNotificationEvent
      (Js.jObj [("data", Js.jObj [("eventType", Js.jStr "zz.event"), ("email", Js.jStr "a@b.com")])])
      "zz.event" { emailEnabled := true, sendSucceeds := true } "nid" "ftid") =
      ["notification.sent"] := by
  obtain ⟨ev, hproc, hkind⟩ := C1_exactly_one_outcome_publication
    (Js.jObj [("data", Js.jObj [("eventType", Js.jStr "zz.event"), ("email", Js.jStr "a@b.com")])])
    "zz.event" { emailEnabled := true, sendSucceeds := true } "nid" "ftid"
    (Js.jObj [("eventType", Js.jStr "zz.event"), ("email", Js.jStr "a@b.com"),
      ("userId", Js.jStr "a@b.com")])
    "zz.event" { subject := "Zz Event", message := "Zz Event notification" }
    rfl rfl rfl (by decide) rfl
  rw [hproc]
  simp only [outcomeKinds, List.map_cons, List.map_nil]
  rw [hkind]
  rfl

/-! ### C2 -/

/-- C2: normalization ends in the skip signal exactly when no event type is
derivable — the unwrapped payload's `eventType` is falsy and the subscription
topic is empty; in that case (given a well-typed `traceparent` header, whose
absence of a truthy non-string value rules out the line-314 TypeError) the
orchestrator returns a success-shaped completion (no exception) with zero
outbound publish calls. -/
theorem C2_skip_iff_no_event_type
    (ce : Js) (topic : String) (env : ProcEnv) (nid freshTid : String)
    (hobj : isObjectJs (unwrapPayload ce) = true) :
    (normSkips ce topic = true ↔
      (truthy (jsGet (unwrapPayload ce) "eventType") = false ∧ topic = "")) ∧
    (traceHeaderOk ce = true → normSkips ce topic = true →
      processNotificationEvent ce topic env nid freshTid = ProcResult.completed [] false) := by
  rcases hcase : unwrapPayload ce with _ | _ | b | n | s | fields
  all_goals try (rw [hcase] at hobj; simp [isObjectJs] at hobj)
  have hnorm : normalizeEventData ce topic =
      some (if !truthy (jsGet (applyUserIdStep fields) "eventType")
            then objSet (applyUserIdStep fields) "eventType" (Js.jStr topic)
            else applyUserIdStep fields) := by
    unfold normalizeEventData
    rw [hcase]
  have hev : jsGet (applyUserIdStep fields) "eventType" = jsGet (Js.jObj fields) "eventType" :=
    jsGet_applyUserIdStep_eventType fields
  obtain ⟨f2, hf2⟩ := applyUserIdStep_isObj fields
  by_cases htr : truthy (jsGet (Js.jObj fields) "eventType") = true
  · have hskip : normSkips ce topic = false := by
      unfold normSkips
      rw [hnorm]
      simp [hev, htr]
    constructor
    · rw [hskip]
      simp [htr]
    · intro _ h
      rw [hskip] at h
      exact absurd h (by simp)
  · simp only [Bool.not_eq_true] at htr
    have hcond : (!truthy (jsGet (applyUserIdStep fields) "eventType")) = true := by
      rw [hev, htr]
      rfl
    have hnorm2 : normalizeEventData ce topic =
        some (objSet (applyUserIdStep fields) "eventType" (Js.jStr topic)) := by
      rw [hnorm]
      simp [hcond]
    have hty2 : jsGet (objSet (applyUserIdStep fields) "eventType" (Js.jStr topic))
        "eventType" = Js.jStr topic := by
      rw [hf2]
      exact jsGet_objSet_same f2 "eventType" (Js.jStr topic)
    have hskip : normSkips ce topic = (topic == "") := by
      unfold normSkips
      rw [hnorm2]
      dsimp only
      rw [hty2]
      simp [truthy, bne]
    constructor
    · rw [hskip]
      constructor
      · intro h
        exact ⟨htr, by simpa using h⟩
      · intro h
        simp [h.2]
    · intro htrc h
      have hfalse : truthy (jsGet (objSet (applyUserIdStep fields) "eventType" (Js.jStr topic))
          "eventType") = false := by
        rw [hty2]
        rw [hskip] at h
        simp only [beq_iff_eq] at h
        simp [truthy, h, bne]
      rw [processNotificationEvent_traceOk ce topic env nid freshTid htrc]
      unfold processNotificationEventBody
      rw [hnorm2]
      simp [hfalse]

/-- C2 witness: a payload with no `type` field and an empty topic skips with a
success-shaped completion and zero publish calls. -/
theorem C2_witness :
    processNotificationEvent (Js.jObj [("data", Js.jObj [("foo", Js.jStr "1")])]) ""
      { emailEnabled := true, sendSucceeds := true } "nid" "ftid" =
      ProcResult.completed [] false := by
  have h := C2_skip_iff_no_event_type (Js.jObj [("data", Js.jObj [("foo", Js.jStr "1")])]) ""
    { emailEnabled := true, sendSucceeds := true } "nid" "ftid" (by decide)
  exact h.2 rfl (h.1.mpr ⟨by decide, rfl⟩)

/-! ### C3 -/

/-- C3 (amended): whenever no recipient address is resolvable or the email
service is disabled, the dispatcher is never invoked and one
`notification.failed` outcome is published — but both conditions are recorded
under the single shared reason string
`No email address or email service disabled`, so they are not distinguishable
from the outcome event's error message. -/
theorem C3_skip_conditions_shared_reason
    (ce : Js) (topic : String) (env : ProcEnv) (nid freshTid : String) (ed : Js) (s : String)
    (r : RenderedTemplate)
    (htrace : traceHeaderOk ce = true)
    (hnorm : normalizeEventData ce topic = some ed)
    (hty : jsGet ed "eventType" = Js.jStr s) (hs : s ≠ "")
    (hrender : renderNotification ed "email" = RenderResult.ok r)
    (hskip : truthy (jsOr (jsGet ed "userEmail") (jsGet ed "email")) = false ∨
      env.emailEnabled = false) :
    ∃ ev : OutcomeEvent,
      processNotificationEvent ce topic env nid freshTid = ProcResult.completed [ev] false ∧
      ev.eventType = "notification.failed" ∧
      ev.errorMessage = some "No email address or email service disabled" := by
  have htr : truthy (jsGet ed "eventType") = true := by
    rw [hty]; exact truthy_jStr_of_ne s hs
  have hcond : (truthy (jsOr (jsGet ed "userEmail") (jsGet ed "email")) && env.emailEnabled)
      = false := by
    rcases hskip with h | h <;> simp [h]
  refine ⟨mkNotificationFailed nid (jsGet ed "eventType") (jsGet ed "userId")
    (jsOr (jsGet ed "userEmail") (jsGet ed "email"))
    (if r.subject = "" then "Notification" else r.subject)
    "No email address or email service disabled"
    (extractTraceContext ce freshTid).1 (extractTraceContext ce freshTid).2, ?_, rfl, rfl⟩
  rw [processNotificationEvent_traceOk ce topic env nid freshTid htrace]
  unfold processNotificationEventBody
  rw [hnorm]
  simp only [htr, if_true, hrender]
  unfold dispatchAndPublish
  simp [hcond]

/-- C3 counterexample: a run with a resolvable recipient but delivery disabled
and a run with no resolvable recipient both publish a failed outcome carrying
the identical error message, so the two failure causes are not distinguishable
as the claim asserts. -/
theorem C3_counterexample :
    outcomeErrorMessages (processNotificationEvent
      (Js.jObj [("eventType", Js.jStr "zz.event"), ("userId", Js.jStr "u1")])
      "zz.event" { emailEnabled := true, sendSucceeds := true } "nid" "ftid") =
      [some "No email address or email service disabled"] ∧
    outcomeErrorMessages (processNotificationEvent
      (Js.jObj [("eventType", Js.jStr "zz.event"), ("userId", Js.jStr "u1"),
        ("email", Js.jStr "a@b.com")])
      "zz.event" { emailEnabled := false, sendSucceeds := true } "nid" "ftid") =
      [some "No email address or email service disabled"] := by
  exact ⟨rfl, rfl⟩

/-- C3 witness: with no `email`/`userEmail` field the dispatcher is not invoked
and the single failed outcome carries the shared reason string. -/
theorem C3_witness :
    outcomeKinds (processNotificationEvent
      (Js.jObj [("eventType", Js.jStr "zz.event"), ("userId", Js.jStr "u1")])
      "zz.event" { emailEnabled := true, sendSucceeds := true } "nid" "ftid") =
      ["notification.failed"] ∧
    emailAttemptedOf (processNotificationEvent
      (Js.jObj [("eventType", Js.jStr "zz.event"), ("userId", Js.jStr "u1")])
      "zz.event" { emailEnabled := true, sendSucceeds := true } "nid" "ftid") = false := by
  obtain ⟨ev, hproc, hkind, herr⟩ := C3_skip_conditions_shared_reason
    (Js.jObj [("eventType", Js.jStr "zz.event"), ("userId", Js.jStr "u1")])
    "zz.event" { emailEnabled := true, sendSucceeds := true } "nid" "ftid"
    (Js.jObj [("eventType", Js.jStr "zz.event"), ("userId", Js.jStr "u1")])
    "zz.event" { subject := "Zz Event", message := "Zz Event notification" }
    rfl rfl rfl (by decide) rfl (Or.inl rfl)
  rw [hproc]
  simp [outcomeKinds, emailAttemptedOf, hkind]

/-! ### C4 -/

/-- C4 (amended): for every template whose subject and body are well-formed
segment flattenings (braces occur only as `\x7b\x7bname\x7d\x7d` placeholders
with brace-free names) and every variable mapping whose keys are brace-free and
whose values' string forms contain no opening brace, and — the regex proviso —
whose keys are free of regex metacharacters with values whose string forms
contain no dollar sign (outside that region the source's
`new RegExp('\\\x7b\\\x7b' + key + '\\\x7d\\\x7d', 'g')` and
`$`-aware replacement string misbehave or throw a SyntaxError),
`renderTemplate` replaces each placeholder occurrence in subject and body
independently with the string form of the corresponding variable
(`null`/`undefined` become the empty string) and leaves every placeholder
whose name matches no variable verbatim. Without the value-shape proviso this
fails: a substituted value that itself contains placeholder text for a later
key is substituted again (see the counterexample). -/
theorem C4_render_substitution
    (t : NotificationTemplate) (vars : List (String × Js)) (ss ms : List TSeg)
    (hlit : literalVars vars = true)
    (hsub : (t.subject.getD "").data = flattenSegs ss)
    (hmsg : t.message_template.data = flattenSegs ms)
    (hssWF : ∀ sg ∈ ss, segWF sg) (hmsWF : ∀ sg ∈ ms, segWF sg)
    (hvars : varsWF vars) :
    renderTemplate t vars =
      some { subject := String.mk (flattenSegs (substSegsSpec vars ss)),
             message := String.mk (flattenSegs (substSegsSpec vars ms)) } := by
  have hbody : renderTemplate t vars =
      some { subject := String.mk (renderChars (t.subject.getD "").data vars),
             message := String.mk (renderChars t.message_template.data vars) } := by
    unfold renderTemplate
    rw [hlit]
    rfl
  rw [hbody, hsub, hmsg, renderChars_segs vars ss hvars hssWF,
    renderChars_segs vars ms hvars hmsWF, foldl_substHole_spec, foldl_substHole_spec]

/-- C4 counterexample: the body `\x7b\x7ba\x7d\x7d` is the flattening of the
single placeholder `a`; with variables `a := "\x7b\x7bb\x7d\x7d"`, `b := "X"`,
independent replacement (the claim) yields `\x7b\x7bb\x7d\x7d`, but
`renderTemplate` substitutes sequentially and produces `X`. -/
theorem C4_counterexample :
    "\x7b\x7ba\x7d\x7d".data = flattenSegs [TSeg.hole ['a']] ∧
    String.mk (flattenSegs (substSegsSpec
      [("a", Js.jStr "\x7b\x7bb\x7d\x7d"), ("b", Js.jStr "X")] [TSeg.hole ['a']])) =
      "\x7b\x7bb\x7d\x7d" ∧
    Option.map RenderedTemplate.message (renderTemplate
      { event_type := "x", channel := "email", template_name := "t",
        subject := none, message_template := "\x7b\x7ba\x7d\x7d", is_active := true }
      [("a", Js.jStr "\x7b\x7bb\x7d\x7d"), ("b", Js.jStr "X")]) = some "X" ∧
    ("X" : String) ≠ "\x7b\x7bb\x7d\x7d" := by
  refine ⟨rfl, rfl, rfl, ?_⟩
  decide

/-- C4 witness: a matched placeholder is substituted, an unmatched one
survives verbatim. -/
theorem C4_witness :
    renderTemplate
      { event_type := "x", channel := "email", template_name := "t",
        subject := some "Hi \x7b\x7bname\x7d\x7d",
        message_template := "Hi \x7b\x7bmissingVar\x7d\x7d, n=\x7b\x7bn\x7d\x7d",
        is_active := true }
      [("name", Js.jStr "Al"), ("n", Js.jNum 7), ("unused", Js.jNull)] =
      some { subject := "Hi Al", message := "Hi \x7b\x7bmissingVar\x7d\x7d, n=7" } := by
  have h := C4_render_substitution
    { event_type := "x", channel := "email", template_name := "t",
      subject := some "Hi \x7b\x7bname\x7d\x7d",
      message_template := "Hi \x7b\x7bmissingVar\x7d\x7d, n=\x7b\x7bn\x7d\x7d",
      is_active := true }
    [("name", Js.jStr "Al"), ("n", Js.jNum 7), ("unused", Js.jNull)]
    [TSeg.lit "Hi ".data, TSeg.hole "name".data]
    [TSeg.lit "Hi ".data, TSeg.hole "missingVar".data, TSeg.lit ", n=".data,
      TSeg.hole ['n']]
    (by decide) rfl rfl (by decide) (by decide) (by decide)
  exact h.trans (by rfl)

/-! ### C5 -/

/-- C5 (amended): for every object payload carrying at least one of the legacy
detection keys (`email`/`userId`/`firstName`) at top level and no truthy
`data` field, the three raw envelope shapes — spec-compliant wrapper, legacy
double-nested wrapper, and flat — normalize to the very same envelope, hence
identical `eventType`, `userId` and `data` contents.  Without the no-`data`
proviso the flat shape is unwrapped differently (see the counterexample). -/
theorem C5_three_shapes_normalize_equal
    (P : Js) (fields : List (String × Js)) (topic : String)
    (hP : P = Js.jObj fields)
    (hdet : (truthy (jsGet P "email") || truthy (jsGet P "userId") ||
      truthy (jsGet P "firstName")) = true)
    (hnd : truthy (jsGet P "data") = false) :
    normalizeEventData (Js.jObj [("data", P)]) topic = normalizeEventData P topic ∧
    normalizeEventData (Js.jObj [("data", Js.jObj [("data", P)])]) topic =
      normalizeEventData P topic ∧
    (normalizeEventData P topic).isSome = true := by
  have htrP : truthy P = true := by rw [hP]; rfl
  have hgetA : jsGet (Js.jObj [("data", P)]) "data" = P := by
    simp [jsGet, lookupKey]
  have huA : unwrapPayload (Js.jObj [("data", P)]) = P := by
    unfold unwrapPayload
    rw [hgetA]
    simp [htrP, hnd]
  have huF : unwrapPayload P = P := by
    unfold unwrapPayload
    simp [hnd]
  have hgetB : jsGet (Js.jObj [("data", Js.jObj [("data", P)])]) "data" =
      Js.jObj [("data", P)] := by
    simp [jsGet, lookupKey]
  have hobjP : isObjectType P = true := by rw [hP]; rfl
  have huB : unwrapPayload (Js.jObj [("data", Js.jObj [("data", P)])]) = P := by
    show (if (truthy P && isObjectType P &&
        (truthy (jsGet P "email") || truthy (jsGet P "userId") || truthy (jsGet P "firstName")))
        = true
      then P else Js.jObj [("data", P)]) = P
    rw [htrP, hobjP, hdet]
    rfl
  constructor
  · unfold normalizeEventData
    rw [huA, huF]
  constructor
  · unfold normalizeEventData
    rw [huB, huF]
  · unfold normalizeEventData
    rw [huF, hP]
    rfl

/-- C5 counterexample: a flat payload that itself carries a `data` field is
unwrapped to that field, so the flat shape loses `userId` (and `data`) while
the wrapped shape keeps them — the claimed shape-equivalence fails. -/
theorem C5_counterexample :
    (normalizeEventData
      (Js.jObj [("data", Js.jObj [("eventType", Js.jStr "order.placed"),
        ("userId", Js.jStr "u1"), ("data", Js.jObj [("orderId", Js.jStr "o5")])])])
      "order.placed").map (fun ed => jsGet ed "userId") = some (Js.jStr "u1") ∧
    (normalizeEventData
      (Js.jObj [("eventType", Js.jStr "order.placed"),
        ("userId", Js.jStr "u1"), ("data", Js.jObj [("orderId", Js.jStr "o5")])])
      "order.placed").map (fun ed => jsGet ed "userId") = some Js.jUndef ∧
    some (Js.jStr "u1") ≠ some Js.jUndef := by
  refine ⟨rfl, rfl, ?_⟩
  intro h
  injection h with h2
  exact Js.noConfusion h2

/-- C5 witness: a payload with a detection key and no nested `data` normalizes
identically in all three shapes. -/
theorem C5_witness :
    normalizeEventData (Js.jObj [("data",
      Js.jObj [("eventType", Js.jStr "zz.event"), ("email", Js.jStr "a@b.com")])]) "t" =
      normalizeEventData (Js.jObj [("eventType", Js.jStr "zz.event"),
        ("email", Js.jStr "a@b.com")]) "t" ∧
    normalizeEventData (Js.jObj [("data", Js.jObj [("data",
      Js.jObj [("eventType", Js.jStr "zz.event"), ("email", Js.jStr "a@b.com")])])]) "t" =
      normalizeEventData (Js.jObj [("eventType", Js.jStr "zz.event"),
        ("email", Js.jStr "a@b.com")]) "t" := by
  have h := C5_three_shapes_normalize_equal
    (Js.jObj [("eventType", Js.jStr "zz.event"), ("email", Js.jStr "a@b.com")])
    [("eventType", Js.jStr "zz.event"), ("email", Js.jStr "a@b.com")] "t"
    rfl (by decide) (by decide)
  exact ⟨h.1, h.2.1⟩

/-! ### C6 -/

/-- C6 (amended): for every envelope whose `eventType` is a non-empty string
and whose prepared variables lie in the literal region — keys free of regex
metacharacters, value strings free of dollar signs — the rendering step yields
a normal result: a template hit is rendered, a miss falls back to the basic
notification, and the fallback subject — the capitalized, space-joined
event-type segments — is non-empty. Outside that region the source can throw:
on a variable key such as `(` the constructor call
new RegExp with pattern backslash-brace backslash-brace ( backslash-brace
backslash-brace raises a SyntaxError (unterminated group), so rendering is not
exception-free in general (see the counterexample). -/
theorem C6_render_succeeds_on_literal_vars
    (ed : Js) (ch : String) (s : String)
    (hty : jsGet ed "eventType" = Js.jStr s) (hs : s ≠ "")
    (hlit : literalVars (prepareTemplateVariables ed) = true) :
    isOkRender (renderNotification ed ch) = true ∧
    (getTemplate (jsToString (jsGet ed "eventType")) ch = none →
      ∀ b, createBasicNotification ed ch = some b →
        renderNotification ed ch = RenderResult.ok b) ∧
    (createBasicNotification ed ch).map RenderedTemplate.subject = some (formatEventType s) ∧
    formatEventType s ≠ "" := by
  refine ⟨?_, ?_, ?_, formatEventType_ne_empty s hs⟩
  · obtain ⟨r, hr⟩ := renderNotification_ok_of_literal ed ch s hty hlit
    rw [hr]
    rfl
  · intro hmiss b hb
    unfold renderNotification
    rw [hmiss, hb]
  · unfold createBasicNotification
    rw [hty]
    rfl

/-- C6 counterexample: `auth.user.registered` has a catalog template, and the
payload carries the data key `(`; in the source the per-key regex construction
throws a SyntaxError on that key before any replacement happens, so the run
leaves the literal region instead of rendering — rendering does not always
succeed. -/
theorem C6_counterexample :
    (getTemplate "auth.user.registered" "email").isSome = true ∧
    renderNotification
      (Js.jObj [("eventType", Js.jStr "auth.user.registered"),
        ("data", Js.jObj [("(", Js.jStr "x")])]) "email" = RenderResult.nonliteral := by
  exact ⟨rfl, rfl⟩

/-- C6 witness: a template-miss event type with literal prepared variables
renders through the fallback with a non-empty subject. -/
theorem C6_witness :
    isOkRender (renderNotification (Js.jObj [("eventType", Js.jStr "zz.event")]) "email") = true ∧
    (createBasicNotification (Js.jObj [("eventType", Js.jStr "zz.event")]) "email").map
      RenderedTemplate.subject = some "Zz Event" ∧
    formatEventType "zz.event" ≠ "" := by
  have h := C6_render_succeeds_on_literal_vars (Js.jObj [("eventType", Js.jStr "zz.event")])
    "email" "zz.event" rfl (by decide) (by decide)
  refine ⟨h.1, ?_, h.2.2.2⟩
  rw [h.2.2.1]
  rfl

/-! ### C7 -/

theorem splitOnChar_length_two (c : Char) :
    ∀ l : List Char, c ∈ l → 2 ≤ (splitOnChar c l).length := by
  intro l
  induction l with
  | nil => intro h; simp at h
  | cons x xs ih =>
    intro h
    by_cases hx : x = c
    · have hpos : 1 ≤ (splitOnChar c xs).length :=
        List.length_pos.mpr (splitOnChar_ne_nil c xs)
      simp only [splitOnChar, if_pos hx, List.length_cons]
      omega
    · have hmem : c ∈ xs := by
        rcases List.mem_cons.mp h with h1 | h1
        · exact absurd h1.symm hx
        · exact h1
      have h2 := ih hmem
      rcases hsp : splitOnChar c xs with _ | ⟨p, ps⟩
      · exact absurd hsp (splitOnChar_ne_nil _ _)
      · rw [hsp] at h2
        simp only [splitOnChar, if_neg hx, hsp, List.length_cons] at h2 ⊢
        omega

/-- C7: trace-context extraction prefers the root `traceparent`, then the one
under `data`, then the one under `headers`; a dash-delimited header yields the
second segment as trace id and the third as span id; an absent header falls
back to the envelope id, else the fresh identifier, with the span id unset. -/
theorem C7_trace_context_extraction (ce : Js) (fresh : String)
    (hobj : isObjectJs ce = true) :
    (truthy (jsGet ce "traceparent") = true →
      extractTraceparent ce = jsGet ce "traceparent") ∧
    (truthy (jsGet ce "traceparent") = false →
      truthy (jsGet (jsGet ce "data") "traceparent") = true →
      extractTraceparent ce = jsGet (jsGet ce "data") "traceparent") ∧
    (truthy (jsGet ce "traceparent") = false →
      truthy (jsGet (jsGet ce "data") "traceparent") = false →
      extractTraceparent ce = jsGet (jsGet ce "headers") "traceparent") ∧
    (∀ s : String, extractTraceparent ce = Js.jStr s → s ≠ "" →
      s.data.contains '-' = true →
      (strSplitOn '-' s).get? 1 = some (extractTraceContext ce fresh).1 ∧
      (extractTraceContext ce fresh).2 = (strSplitOn '-' s).get? 2) ∧
    (truthy (extractTraceparent ce) = false →
      (extractTraceContext ce fresh).1 =
        (if truthy (jsGet ce "id") then jsToString (jsGet ce "id") else fresh) ∧
      (extractTraceContext ce fresh).2 = none) := by
  refine ⟨?_, ?_, ?_, ?_, ?_⟩
  · intro h1
    unfold extractTraceparent jsOr
    simp [h1]
  · intro h1 h2
    unfold extractTraceparent jsOr
    simp [h1, h2]
  · intro h1 h2
    unfold extractTraceparent jsOr
    simp [h1, h2]
  · intro s htp hne hdash
    have hmem : '-' ∈ s.data := List.elem_iff.mp hdash
    have hlen : 2 ≤ (strSplitOn '-' s).length := by
      unfold strSplitOn
      rw [List.length_map]
      exact splitOnChar_length_two '-' s.data hmem
    have hget : (strSplitOn '-' s).get? 1 =
        some ((strSplitOn '-' s).get ⟨1, by omega⟩) := List.get?_eq_get (by omega)
    have h1 : truthy (Js.jStr s) = true := truthy_jStr_of_ne s hne
    have hctx : extractTraceContext ce fresh =
        (((strSplitOn '-' s).get? 1).getD "", (strSplitOn '-' s).get? 2) := by
      unfold extractTraceContext
      rw [htp]
      simp [h1, hmem, jsToString]
    constructor
    · rw [hctx, hget]
      rfl
    · rw [hctx]
  · intro h1
    have hctx : extractTraceContext ce fresh =
        ((if truthy (jsGet ce "id") = true then jsToString (jsGet ce "id") else fresh), none) := by
      unfold extractTraceContext
      dsimp only
      rw [h1]
      simp
    rw [hctx]
    exact ⟨rfl, rfl⟩

/-- C7 witness: a root dash-delimited header yields segment two/three as
trace/span id; with no header the envelope id, else the fresh id, is used. -/
theorem C7_witness :
    extractTraceparent (Js.jObj [("traceparent", Js.jStr "00-abc-def-01")]) =
      Js.jStr "00-abc-def-01" ∧
    (strSplitOn '-' "00-abc-def-01").get? 1 =
      some (extractTraceContext (Js.jObj [("traceparent", Js.jStr "00-abc-def-01")]) "fr").1 ∧
    (extractTraceContext (Js.jObj [("traceparent", Js.jStr "00-abc-def-01")]) "fr").2 =
      (strSplitOn '-' "00-abc-def-01").get? 2 ∧
    (extractTraceContext (Js.jObj [("id", Js.jStr "cid")]) "fr").1 = "cid" ∧
    (extractTraceContext (Js.jObj []) "fr").1 = "fr" := by
  have hA := C7_trace_context_extraction (Js.jObj [("traceparent", Js.jStr "00-abc-def-01")])
    "fr" rfl
  have hC := C7_trace_context_extraction (Js.jObj [("id", Js.jStr "cid")]) "fr" rfl
  have hD := C7_trace_context_extraction (Js.jObj []) "fr" rfl
  have htpA : extractTraceparent (Js.jObj [("traceparent", Js.jStr "00-abc-def-01")]) =
      Js.jStr "00-abc-def-01" := (hA.1 rfl).trans rfl
  refine ⟨htpA, ?_, ?_, ?_, ?_⟩
  · exact (hA.2.2.2.1 "00-abc-def-01" htpA (by decide) (by decide)).1
  · exact (hA.2.2.2.1 "00-abc-def-01" htpA (by decide) (by decide)).2
  · exact (hC.2.2.2.2 rfl).1.trans rfl
  · exact (hD.2.2.2.2 rfl).1.trans rfl

/-! ### C8 -/

/-- C8: in the broker-variant consumer, a delivered message whose handler
invocation throws is negatively acknowledged with requeue and never positively
acknowledged; a positive acknowledge happens exactly when the parsed message's
handler returned without throwing. -/
theorem C8_nack_on_handler_throw (msg : DeliveredMessage) (handler : Js → HandlerResult) :
    (consumeDelivery msg handler = BrokerAction.ack ↔
      ∃ fields, msg.parsedContent = some (Js.jObj fields) ∧
        handler (Js.jObj (setKey fields "type" (Js.jStr msg.routingKey))) = HandlerResult.ok) ∧
    (∀ fields, msg.parsedContent = some (Js.jObj fields) →
      handler (Js.jObj (setKey fields "type" (Js.jStr msg.routingKey))) = HandlerResult.thrown →
      consumeDelivery msg handler = BrokerAction.nackRequeue) := by
  constructor
  · constructor
    · intro h
      unfold consumeDelivery at h
      rcases hpc : msg.parsedContent with _ | v
      · rw [hpc] at h
        simp at h
      · rcases v with _ | _ | b | n | s | fields
        all_goals rw [hpc] at h
        all_goals try simp at h
        rcases hres : handler (Js.jObj (setKey fields "type" (Js.jStr msg.routingKey))) with _ | _
        · exact ⟨fields, rfl, hres⟩
        · rw [hres] at h
          simp at h
    · rintro ⟨fields, hpc, hok⟩
      unfold consumeDelivery
      rw [hpc]
      simp [hok]
  · intro fields hpc hthrown
    unfold consumeDelivery
    rw [hpc]
    simp [hthrown]

/-- C8 witness: a throwing handler gets its message requeued. -/
theorem C8_witness :
    consumeDelivery { parsedContent := some (Js.jObj [("k", Js.jStr "v")]), routingKey := "r" }
      (fun _ => HandlerResult.thrown) = BrokerAction.nackRequeue :=
  (C8_nack_on_handler_throw
    { parsedContent := some (Js.jObj [("k", Js.jStr "v")]), routingKey := "r" }
    (fun _ => HandlerResult.thrown)).2 [("k", Js.jStr "v")] rfl rfl

/-! ### C9 -/

/-- C9 (code bug): with two concurrent first callers interleaved as
check-A, check-B, resume-A, resume-B — the interleaving the `await` inside the
unguarded `if (!messagingProviderInstance)` permits — `createProvider` runs
twice (`creations = 2`) and the two callers return the distinct instances `0`
and `1`, contradicting the required exactly-once initialization with a single
shared cached instance. -/
theorem C9_factory_race_two_creations :
    runFactorySched [false, true, false, true]
        (initFactoryState, CallerPhase.ready, CallerPhase.ready) =
      ({ cached := some 1, nextId := 2, creations := 2 },
        CallerPhase.returned 0, CallerPhase.returned 1) := rfl

/-! ### C10 -/

theorem isPrefixOf_append_self (l x : List Char) : l.isPrefixOf (l ++ x) = true := by
  induction l with
  | nil => simp [List.isPrefixOf]
  | cons c rest ih => simp [List.isPrefixOf, ih]

theorem string_data_append (a b : String) : (a ++ b).data = a.data ++ b.data := by
  cases a
  cases b
  rfl

theorem replaceFirstL_whole_prefix (c : Char) (pr rest : List Char) :
    replaceFirstL (c :: pr) [] ((c :: pr) ++ rest) = rest := by
  have hpre := isPrefixOf_append_self (c :: pr) rest
  rw [List.cons_append]
  unfold replaceFirstL
  rw [List.cons_append] at hpre
  simp only [hpre, List.isEmpty_cons, Bool.not_false, Bool.and_self, if_true]
  simp only [List.length_cons, Nat.add_sub_cancel, List.nil_append]
  exact List.drop_left pr rest

/-- C10 (amended): routing strips a leading `com.xshopai.` exactly once before
handler lookup (a doubled prefix is stripped once, a non-prefixed type is
untouched); an event whose stripped type matches no registered topic — and is
not the name of an Object.prototype member, which the source's bracket lookup
on the handler table finds through the prototype chain (a stripped topic of
__proto__ yields a truthy non-function, the call throws, and the message is
nack-requeued: see the counterexample) — makes `routeEventToHandler` return
without invoking any handler, so the broker consumer positively acknowledges
the message and never requeues it. -/
theorem C10_unmatched_topic_acked
    (impl : String → Js → HandlerResult) (r t : String) (ev : Js)
    (msg : DeliveredMessage) (fields : List (String × Js)) :
    (routedTopic ("com.xshopai." ++ r) = r) ∧
    (strStartsWith "com.xshopai." t = false → routedTopic t = t) ∧
    (jsGet ev "type" = Js.jStr t → routedTopic t ∉ topicHandlerKeys →
      routedTopic t ∉ objectPrototypeKeys →
      routeEventToHandler impl ev = RouteResult.noHandler) ∧
    (msg.parsedContent = some (Js.jObj fields) →
      routedTopic msg.routingKey ∉ topicHandlerKeys →
      routedTopic msg.routingKey ∉ objectPrototypeKeys →
      consumeRoutedDelivery impl msg = some BrokerAction.ack) := by
  have hstrip : ∀ q : String, routedTopic ("com.xshopai." ++ q) = q := by
    intro q
    have hsw : strStartsWith "com.xshopai." ("com.xshopai." ++ q) = true := by
      unfold strStartsWith
      rw [string_data_append]
      exact isPrefixOf_append_self _ _
    unfold routedTopic
    rw [hsw, if_pos rfl, string_data_append,
      show ("com.xshopai." : String).data = 'c' :: ("om.xshopai." : String).data from rfl,
      replaceFirstL_whole_prefix]
  refine ⟨hstrip r, ?_, ?_, ?_⟩
  · intro hns
    unfold routedTopic
    rw [hns]
    rfl
  · intro hty hnk hnp
    have hne : ¬ routedTopic t = "__proto__" := fun he => hnp (by rw [he]; decide)
    unfold routeEventToHandler
    rw [hty]
    simp [hnk, hne, hnp]
  · intro hpc hnk hnp
    have hne : ¬ routedTopic msg.routingKey = "__proto__" :=
      fun he => hnp (by rw [he]; decide)
    have hroute : routeEventToHandler impl
        (Js.jObj (setKey fields "type" (Js.jStr msg.routingKey))) = RouteResult.noHandler := by
      unfold routeEventToHandler
      rw [show jsGet (Js.jObj (setKey fields "type" (Js.jStr msg.routingKey))) "type" =
          Js.jStr msg.routingKey from by
        simp [jsGet, lookupKey_setKey_same]]
      simp [hnk, hne, hnp]
    unfold consumeRoutedDelivery
    rw [hpc]
    simp [hroute]

/-- C10 counterexample: a routing key whose stripped topic is __proto__
matches no registered topic, yet the source's prototype-chain lookup makes the
handler expression truthy and non-callable, the invocation throws, and the
consumer nack-requeues the message instead of acking it. -/
theorem C10_counterexample :
    "__proto__" ∉ topicHandlerKeys ∧
    routedTopic "com.xshopai.__proto__" = "__proto__" ∧
    consumeRoutedDelivery (fun _ _ => HandlerResult.ok)
      { parsedContent := some (Js.jObj []), routingKey := "com.xshopai.__proto__" } =
      some BrokerAction.nackRequeue := by
  exact ⟨by decide, rfl, rfl⟩

/-- C10 witness: a message whose routing key reduces to an unregistered,
non-prototype topic is routed to no handler and positively acknowledged, even
with a throwing handler implementation installed for every registered topic. -/
theorem C10_witness :
    consumeRoutedDelivery (fun _ _ => HandlerResult.thrown)
      { parsedContent := some (Js.jObj []), routingKey := "com.xshopai.zz.unknown" } =
      some BrokerAction.ack ∧
    routedTopic "com.xshopai.com.xshopai.x" = "com.xshopai.x" := by
  have h := C10_unmatched_topic_acked (fun _ _ => HandlerResult.thrown) "com.xshopai.x"
    "zz" (Js.jObj [])
    { parsedContent := some (Js.jObj []), routingKey := "com.xshopai.zz.unknown" } []
  exact ⟨h.2.2.2 rfl (by decide) (by decide), h.1⟩
